import Mathlib

/-!
Verification of the EAN / EIC validator-generator core.

Strings are modelled as `List Char`; Python's single-character strings
(e.g. `code[2]`) are modelled as `Char`.  Python compares characters by
code point, which we mirror through `Char.toNat`.  Error messages raised
via `ValueError` subclasses are modelled by inductive error types that
record the kind of failure (and the offending datum where the message
shows it); fallible functions return `Except`.  `str.upper()` is modelled
on the ASCII range, the only range the inputs of interest use.
-/

namespace EICValidator

/-- Model of Python `str.upper()` on a single ASCII character. -/
def toUpperChar (c : Char) : Char :=
  if 97 ≤ c.toNat ∧ c.toNat ≤ 122 then Char.ofNat (c.toNat - 32) else c

/-- Model of Python `str.upper()` on a string. -/
def upperStr (s : List Char) : List Char := s.map toUpperChar

/-- Model of `'0' <= c <= '9'` in Python (code points 48..57). -/
def isAsciiDigit (c : Char) : Bool := 48 ≤ c.toNat && c.toNat ≤ 57

/-- Model of `'A' <= c <= 'Z'` in Python (code points 65..90). -/
def isUpperAZ (c : Char) : Bool := 65 ≤ c.toNat && c.toNat ≤ 90

/-- Membership in the EIC alphabet `[0-9A-Z]`. -/
def isEICChar (c : Char) : Bool := isAsciiDigit c || isUpperAZ c

/-- Model of Python `str.isdigit()` restricted to ASCII: non-empty and
all characters are decimal digits. -/
def isdigitStr (s : List Char) : Bool := !s.isEmpty && s.all isAsciiDigit

/-- Numeric value of a decimal digit character, `int(c)`. -/
def digitVal (c : Char) : Nat := c.toNat - 48

/-- The character of a decimal digit value, `str(v)` for `0 ≤ v ≤ 9`. -/
def digitChar (v : Nat) : Char := Char.ofNat (48 + v)

/-! ## EIC character codec (`src/eic_validation.py`) -/

/-- Error kinds of `eic_validation.py` (`ValueError` messages). -/
inductive EICErr where
  | invalidLength (got : Nat)
  | invalidChar (c : Char)
  | invalidValue (v : Nat)
deriving DecidableEq, Repr

/-- Model of `_char_to_value`: character to value for ISO 7064 Mod 37,36. -/
def charToValue (c : Char) : Except EICErr Nat :=
  if 48 ≤ c.toNat ∧ c.toNat ≤ 57 then .ok (c.toNat - 48)
  else if 65 ≤ c.toNat ∧ c.toNat ≤ 90 then .ok (c.toNat - 65 + 10)
  else .error (.invalidChar c)

/-- Model of `_value_to_char`: value `0..35` back to a character. -/
def valueToChar (v : Nat) : Except EICErr Char :=
  if v ≤ 9 then .ok (digitChar v)
  else if v ≤ 35 then .ok (Char.ofNat (65 + v - 10))
  else .error (.invalidValue v)

/-- The per-character step of the Mod 37,36 fold:
`remainder = (remainder * 36 + value) % 37`. -/
def eicStep (r v : Nat) : Nat := (r * 36 + v) % 37

/-- The fallible fold of `calculate_eic_check_digit` over the base,
converting each character and updating the remainder in order. -/
def eicRemainderM (s : List Char) : Except EICErr Nat :=
  s.foldlM (fun r c => (eicStep r ·) <$> charToValue c) 0

/-- Model of `calculate_eic_check_digit` (`eic_validation.py:101-134`): length
check, uppercase, Mod 37,36 fold, complement, 36→0 remap, codec. -/
def calculate_eic_check_digit (eic_base : List Char) : Except EICErr Char :=
  if eic_base.length ≠ 15 then .error (.invalidLength eic_base.length)
  else do
    let r ← eicRemainderM (upperStr eic_base)
    let v := (37 - r) % 37
    let v := if v = 36 then 0 else v
    valueToChar v

deriving instance DecidableEq for Except

/-- Model of `validate_eic_check_digit` (`eic_validation.py:137-163`): recompute
the check digit over the first 15 characters and compare with the 16th. -/
def validate_eic_check_digit (eic_code : List Char) : Bool :=
  if eic_code.length ≠ 16 then false
  else
    match calculate_eic_check_digit ((upperStr eic_code).take 15) with
    | .ok expected => (upperStr eic_code).getLastD ' ' == expected
    | .error _ => false

/-- The `EICComponents` dataclass. -/
structure EICComponents where
  office_id : List Char
  entity_type : Char
  individual_id : List Char
  check_digit : Char
deriving DecidableEq, Repr

/-- The `base` property: the 15-character base without the check digit. -/
def EICComponents.base (c : EICComponents) : List Char :=
  c.office_id ++ c.entity_type :: c.individual_id

/-- The `full_code` property: the complete 16-character code. -/
def EICComponents.full_code (c : EICComponents) : List Char :=
  c.base ++ [c.check_digit]

/-- Model of `parse_eic_components` (`eic_validation.py:166-189`): length gate,
uppercase, then fixed-offset slicing `[0:2]`, `[2]`, `[3:15]`, `[15]`. -/
def parse_eic_components (eic_code : List Char) : Option EICComponents :=
  if h : eic_code.length = 16 then
    some { office_id := (upperStr eic_code).take 2
           entity_type := (upperStr eic_code).get ⟨2, by
             simp only [upperStr, List.length_map]; omega⟩
           individual_id := ((upperStr eic_code).drop 3).take 12
           check_digit := (upperStr eic_code).get ⟨15, by
             simp only [upperStr, List.length_map]; omega⟩ }
  else none

/-- Error kinds recorded in the `errors` list of `validate_eic_format`
(each constructor stands for one message string of the source). -/
inductive EICFmtErr where
  | badLength (got : Nat)
  | badCharset
  | parseFail
  | badOffice
  | badEntity
  | badIndividual
  | badCheckDigit
deriving DecidableEq, Repr

/-- Result shape of `validate_eic_format`. -/
structure EICFmtResult where
  is_valid : Bool
  errors : List EICFmtErr
  components : Option EICComponents
deriving DecidableEq, Repr

/-- The normalization of `validate_eic_format` / `is_valid_eic`:
`replace('-','').replace(' ','').upper()`. -/
def cleanEIC (s : List Char) : List Char :=
  upperStr (s.filter (fun c => c ≠ '-' ∧ c ≠ ' '))

/-- Model of `re.match(r'^[0-9A-Z]{16}$', s)` as a Boolean. -/
def matchesEICFull (s : List Char) : Bool := s.length == 16 && s.all isEICChar

/-- Model of `re.match(r'^[0-9A-Z]{2}$', s)` as a Boolean. -/
def matchesOffice (s : List Char) : Bool := s.length == 2 && s.all isEICChar

/-- Model of `re.match(r'^[A-Z0-9]$', s)` on a single character. -/
def matchesEntity (c : Char) : Bool := isEICChar c

/-- Model of `re.match(r'^[0-9A-Z]{12}$', s)` as a Boolean. -/
def matchesIndividual (s : List Char) : Bool := s.length == 12 && s.all isEICChar

/-- The error list accumulated by `validate_eic_format` once the length
and charset gates have passed. -/
def eicFieldErrors (eic_clean : List Char) (comp : EICComponents) : List EICFmtErr :=
  (if ¬ matchesOffice comp.office_id then [.badOffice] else []) ++
  (if ¬ matchesEntity comp.entity_type then [.badEntity] else []) ++
  (if ¬ matchesIndividual comp.individual_id then [.badIndividual] else []) ++
  (if ¬ validate_eic_check_digit eic_clean then [.badCheckDigit] else [])

/-- Model of `validate_eic_format` (`eic_validation.py:192-244`), continued:
normalize, gate on length then charset, parse, per-field diagnostics,
check digit; valid iff the error list stayed empty. -/
def validate_eic_format (eic_code : List Char) : EICFmtResult :=
  if (cleanEIC eic_code).length ≠ 16 then
    { is_valid := false, errors := [.badLength (cleanEIC eic_code).length],
      components := none }
  else if ¬ matchesEICFull (cleanEIC eic_code) then
    { is_valid := false, errors := [.badCharset], components := none }
  else
    match parse_eic_components (cleanEIC eic_code) with
    | none => { is_valid := false, errors := [.parseFail], components := none }
    | some comp =>
      { is_valid := (eicFieldErrors (cleanEIC eic_code) comp).isEmpty
        errors := eicFieldErrors (cleanEIC eic_code) comp
        components := if (eicFieldErrors (cleanEIC eic_code) comp).isEmpty
          then some comp else none }

/-- Result shape of `is_valid_eic`. -/
structure EICResult where
  is_valid : Bool
  eic_code : List Char
  errors : List EICFmtErr
  components : Option EICComponents
deriving DecidableEq, Repr

/-- Model of `is_valid_eic` (`eic_validation.py:247-272`): wrap
`validate_eic_format`; the reported code is the cleaned string when that
is 16 characters long, the raw input otherwise. -/
def is_valid_eic (eic_code : List Char) : EICResult :=
  { is_valid := (validate_eic_format eic_code).is_valid
    eic_code := if (cleanEIC eic_code).length = 16 then cleanEIC eic_code
      else eic_code
    errors := (validate_eic_format eic_code).errors
    components := (validate_eic_format eic_code).components }

/-! ## EIC generation (`src/eic_generation.py`) -/

/-- Model of `VALID_COUNTRY_CODES`: the ENTSO-E office-code registry. -/
def VALID_COUNTRY_CODES : List (List Char) :=
  [['1','0'], ['1','1'], ['1','2'], ['1','3'], ['1','4'],
   ['1','5'], ['1','6'], ['1','7'], ['1','8'], ['1','9'],
   ['2','0'], ['2','1'], ['2','2'], ['2','3'], ['2','4'],
   ['2','5'], ['2','6'], ['2','7'], ['2','8'], ['2','9'],
   ['3','0'], ['3','1'], ['3','2'], ['3','3'], ['3','4'],
   ['3','5'], ['3','6'], ['3','7'], ['3','8'], ['3','9'],
   ['4','0'], ['4','1'], ['4','2'], ['4','3'], ['4','4'],
   ['4','5'], ['4','6'], ['4','7'], ['4','8'], ['4','9'],
   ['5','0'], ['5','1'], ['5','2'], ['5','3'], ['5','4'],
   ['5','5'], ['5','6'], ['5','7'], ['5','8'], ['5','9'],
   ['X','1'], ['X','2'], ['X','3'], ['X','4'], ['X','5'],
   ['X','6'], ['X','7'], ['X','8'], ['X','9'],
   ['Y','1'], ['Y','2'], ['Y','3'], ['Y','4'], ['Y','5'],
   ['Y','6'], ['Y','7'], ['Y','8'], ['Y','9'],
   ['Z','1'], ['Z','2'], ['Z','3'], ['Z','4'], ['Z','5'],
   ['Z','6'], ['Z','7'], ['Z','8'], ['Z','9']]

/-- Model of `VALID_ENTITY_TYPES`: the ENTSO-E entity-type registry. -/
def VALID_ENTITY_TYPES : List Char :=
  ['T', 'Y', 'A', 'V', 'W', 'Z', 'X', 'B', 'C', 'D', 'E', 'F', 'G', 'H',
   'L', 'M', 'P', 'S', '1', '2', '3', '4', '5', '6', '7', '8', '9', '0']

/-- Model of `is_valid_country_code` (`eic_generation.py:146-159`). -/
def is_valid_country_code (code : List Char) : Bool :=
  code.length == 2 && VALID_COUNTRY_CODES.contains (upperStr code)

/-- Model of `is_valid_entity_type` (`eic_generation.py:162-175`); the membership
test is on the single character of the 1-character string. -/
def is_valid_entity_type (entity_type : List Char) : Bool :=
  entity_type.length == 1 &&
    (upperStr entity_type).all (VALID_ENTITY_TYPES.contains ·)

/-- Error conditions of EIC generation. -/
inductive EICGenErr where
  | invalidCountryCode
  | invalidEntityType
  | calcErr (e : EICErr)
deriving DecidableEq, Repr

/-- Model of `generate_eic` (`eic_generation.py:215-257`), with the 12-character
random identifier drawn by `_generate_base_identifier` passed in as the
`ident` argument: uppercase both inputs, validate country code first and
entity type second, assemble the 15-character base, append the check
digit. -/
def generate_eic (country_code entity_type ident : List Char) :
    Except EICGenErr (List Char) :=
  if ¬ is_valid_country_code (upperStr country_code) then .error .invalidCountryCode
  else if ¬ is_valid_entity_type (upperStr entity_type) then .error .invalidEntityType
  else
    match calculate_eic_check_digit
        (upperStr country_code ++ upperStr entity_type ++ ident) with
    | .ok cd => .ok (upperStr country_code ++ upperStr entity_type ++ ident ++ [cd])
    | .error e => .error (.calcErr e)

/-- Error conditions of the bulk generators; `noFuel` marks a run of the
unbounded retry loop that did not terminate within the given fuel. -/
inductive BulkErr (ε : Type) where
  | invalidCount
  | genErr (e : ε)
  | noFuel
deriving DecidableEq, Repr

/-- The retry loop of `generate_multiple_eics`: draw, insert into the
set unless already present, until `n` distinct codes are collected.  The
set is modelled as a duplicate-free list; `draws i` is the identifier of
the `i`-th call to `_generate_base_identifier`. -/
def eicLoop (cc et : List Char) (draws : Nat → List Char) (n : Nat) :
    List (List Char) → Nat → Nat → Except (BulkErr EICGenErr) (List (List Char))
  | acc, _, 0 => if n ≤ acc.length then .ok acc else .error .noFuel
  | acc, i, fuel + 1 =>
    if n ≤ acc.length then .ok acc
    else
      match generate_eic cc et (draws i) with
      | .error e => .error (.genErr e)
      | .ok code =>
        eicLoop cc et draws n
          (if acc.contains code then acc else code :: acc) (i + 1) fuel

/-- Model of `generate_multiple_eics` (`eic_generation.py:260-284`): reject a
non-positive count before any draw, then loop-draw-and-insert until
`count` distinct codes exist.  `fuel` bounds the unbounded `while`. -/
def generate_multiple_eics (country_code entity_type : List Char)
    (count : Int) (draws : Nat → List Char) (fuel : Nat) :
    Except (BulkErr EICGenErr) (List (List Char)) :=
  if count ≤ 0 then .error .invalidCount
  else eicLoop country_code entity_type draws count.toNat [] 0 fuel

/-! ## EAN validation (`src/ean_validation.py`) -/

/-- Error kinds of `_calculate_ean_check_digit` (`ValueError` messages). -/
inductive EANErr where
  | notNumeric
  | badDataLength (got : Nat)
deriving DecidableEq, Repr

/-- The weighted sum of `_calculate_ean_check_digit`: iterate over the
reversed digit list with a running index `i`; weight 3 when `i` is even,
1 when odd (`for i, digit in enumerate(reversed(digits))`). -/
def eanSumRev : List Nat → Nat → Nat
  | [], _ => 0
  | d :: ds, i => d * (if i % 2 = 0 then 3 else 1) + eanSumRev ds (i + 1)

/-- Model of `_calculate_ean_check_digit` (`ean_validation.py:46-91`): digits
check, data-length check, weighted sum from the right, `(10 - s%10) % 10`,
rendered as a digit character. -/
def calculate_ean_check_digit (data_part : List Char) : Except EANErr Char :=
  if ¬ isdigitStr data_part then .error .notNumeric
  else if ¬ (data_part.length = 7 ∨ data_part.length = 12 ∨ data_part.length = 13) then
    .error (.badDataLength data_part.length)
  else
    let total := eanSumRev (data_part.map digitVal).reverse 0
    .ok (digitChar ((10 - total % 10) % 10))

/-- Model of `validate_ean_check_digit` (`ean_validation.py:117-141`): digits and
length gates, then recompute over `code[:-1]` and compare with `code[-1]`. -/
def validate_ean_check_digit (ean_code : List Char) : Bool :=
  if ¬ isdigitStr ean_code then false
  else if ¬ (ean_code.length = 8 ∨ ean_code.length = 13 ∨ ean_code.length = 14) then false
  else
    match calculate_ean_check_digit ean_code.dropLast with
    | .ok expected => ean_code.getLast? == some expected
    | .error _ => false

/-- The three EAN format labels `"EAN-8"`, `"EAN-13"`, `"EAN-14"`. -/
inductive EANFormat where
  | ean8
  | ean13
  | ean14
deriving DecidableEq, Repr

/-- The `EANComponents` dataclass. -/
structure EANComponents where
  data_part : List Char
  check_digit : Char
  format : EANFormat
deriving DecidableEq, Repr

/-- Model of `parse_ean_components` (`ean_validation.py:144-175`): digits gate,
length gate, split `[:-1]` / `[-1]`, format from total length. -/
def parse_ean_components (ean_code : List Char) : Option EANComponents :=
  if ¬ isdigitStr ean_code then none
  else
    match ean_code.getLast?, ean_code.length with
    | some last, 8 => some ⟨ean_code.dropLast, last, .ean8⟩
    | some last, 13 => some ⟨ean_code.dropLast, last, .ean13⟩
    | some last, 14 => some ⟨ean_code.dropLast, last, .ean14⟩
    | _, _ => none

/-- Error kinds recorded in the `errors` list of `validate_ean_format`. -/
inductive EANFmtErr where
  | notNumeric
  | badLength (got : Nat)
  | parseFail
  | badCheckDigit
deriving DecidableEq, Repr

/-- The whitespace characters removed by Python `str.strip()`. -/
def isPyWS (c : Char) : Bool :=
  c == ' ' || c == '\t' || c == '\n' || c == '\r' || c == '\x0b' || c == '\x0c'

/-- Python `str.strip()`: drop leading and trailing whitespace. -/
def pyStrip (s : List Char) : List Char :=
  ((s.dropWhile isPyWS).reverse.dropWhile isPyWS).reverse

/-- The normalization of `validate_ean_format`:
`replace('-','').replace(' ','').strip()`. -/
def cleanEAN (s : List Char) : List Char :=
  pyStrip (s.filter (fun c => c ≠ '-' ∧ c ≠ ' '))

/-- Result shape of `validate_ean_format`. -/
structure EANFmtResult where
  is_valid : Bool
  format : Option EANFormat
  errors : List EANFmtErr
  components : Option EANComponents
deriving DecidableEq, Repr

/-- Model of `validate_ean_format` (`ean_validation.py:178-241`): normalize,
digits gate, length gate, parse, check digit; valid iff no errors. -/
def validate_ean_format (ean_code : List Char) : EANFmtResult :=
  if ¬ isdigitStr (cleanEAN ean_code) then
    { is_valid := false, format := none, errors := [.notNumeric], components := none }
  else if ¬ ((cleanEAN ean_code).length = 8 ∨ (cleanEAN ean_code).length = 13 ∨
      (cleanEAN ean_code).length = 14) then
    { is_valid := false, format := none,
      errors := [.badLength (cleanEAN ean_code).length], components := none }
  else
    match parse_ean_components (cleanEAN ean_code) with
    | none =>
      { is_valid := false, format := none, errors := [.parseFail], components := none }
    | some comp =>
      if ¬ validate_ean_check_digit (cleanEAN ean_code) then
        { is_valid := false, format := none,
          errors := [.badCheckDigit], components := none }
      else
        { is_valid := true, format := some comp.format, errors := [],
          components := some comp }

/-- Model of `validate_ean` (`ean_validation.py:244-271`): the terse triple
`(is_valid, format, error_message)`; the joined message string is
modelled as the error list itself. -/
def validate_ean (ean_code : List Char) :
    Bool × Option EANFormat × Option (List EANFmtErr) :=
  if (validate_ean_format ean_code).is_valid then
    (true, (validate_ean_format ean_code).format, none)
  else (false, none, some (validate_ean_format ean_code).errors)

/-! ## EAN generation (`src/ean_generation.py`) -/

/-- The format label strings, as character lists. -/
def eanTypeStr : EANFormat → List Char
  | .ean8 => ['E', 'A', 'N', '-', '8']
  | .ean13 => ['E', 'A', 'N', '-', '1', '3']
  | .ean14 => ['E', 'A', 'N', '-', '1', '4']

/-- Model of `is_valid_ean_type` (`ean_generation.py:28-37`). -/
def is_valid_ean_type (ean_type : List Char) : Bool :=
  ean_type == eanTypeStr .ean8 || ean_type == eanTypeStr .ean13 ||
    ean_type == eanTypeStr .ean14

/-- Model of `expected_length_map`, defined on the three valid labels. -/
def eanExpectedLength (ean_type : List Char) : Nat :=
  if ean_type == eanTypeStr .ean8 then 7
  else if ean_type == eanTypeStr .ean13 then 12
  else 13

/-- Error conditions of EAN generation. -/
inductive EANGenErr where
  | invalidType
  | invalidBase
  | calcErr (e : EANErr)
deriving DecidableEq, Repr

/-- Model of `_validate_base_code` (`ean_generation.py:40-76`): type check first,
then digits, then exact expected length. -/
def validate_base_code (base_code ean_type : List Char) : Except EANGenErr Unit :=
  if ¬ is_valid_ean_type ean_type then .error .invalidType
  else if ¬ isdigitStr base_code then .error .invalidBase
  else if base_code.length ≠ eanExpectedLength ean_type then .error .invalidBase
  else .ok ()

/-- Model of `generate_ean` (`ean_generation.py:108-146`): uppercase the type,
validate, append the computed check digit. -/
def generate_ean (base_code ean_type : List Char) : Except EANGenErr (List Char) :=
  match validate_base_code base_code (upperStr ean_type) with
  | .error e => .error e
  | .ok _ =>
    match calculate_ean_check_digit base_code with
    | .ok cd => .ok (base_code ++ [cd])
    | .error e => .error (.calcErr e)

/-- Model of `generate_random_ean` (`ean_generation.py:149-176`) with the random
base passed in: uppercase the type, re-validate it (as
`_generate_random_base` does), then delegate to `generate_ean`. -/
def generate_random_ean (ean_type base : List Char) : Except EANGenErr (List Char) :=
  if ¬ is_valid_ean_type (upperStr ean_type) then .error .invalidType
  else generate_ean base (upperStr ean_type)

/-- The retry loop of `generate_multiple_eans`, mirroring `eicLoop`. -/
def eanLoop (t : List Char) (draws : Nat → List Char) (n : Nat) :
    List (List Char) → Nat → Nat → Except (BulkErr EANGenErr) (List (List Char))
  | acc, _, 0 => if n ≤ acc.length then .ok acc else .error .noFuel
  | acc, i, fuel + 1 =>
    if n ≤ acc.length then .ok acc
    else
      match generate_random_ean t (draws i) with
      | .error e => .error (.genErr e)
      | .ok code =>
        eanLoop t draws n
          (if acc.contains code then acc else code :: acc) (i + 1) fuel

/-- Model of `generate_multiple_eans` (`ean_generation.py:179-209`): reject a
non-positive count before any draw, uppercase and check the type, then
loop-draw-and-insert until `count` distinct codes exist. -/
def generate_multiple_eans (ean_type : List Char) (count : Int)
    (draws : Nat → List Char) (fuel : Nat) :
    Except (BulkErr EANGenErr) (List (List Char)) :=
  if count ≤ 0 then .error .invalidCount
  else if ¬ is_valid_ean_type (upperStr ean_type) then .error (.genErr .invalidType)
  else eanLoop (upperStr ean_type) draws count.toNat [] 0 fuel

/-! ## Character-level lemmas -/

theorem char_toNat_ofNat {n : Nat} (h : n < 55296) : (Char.ofNat n).toNat = n := by
  have hv : Nat.isValidChar n := Or.inl h
  simp [Char.ofNat, hv, Char.ofNatAux, Char.toNat, UInt32.toNat]

theorem isEICChar_toNat {c : Char} (h : isEICChar c = true) :
    (48 ≤ c.toNat ∧ c.toNat ≤ 57) ∨ (65 ≤ c.toNat ∧ c.toNat ≤ 90) := by
  simp [isEICChar, isAsciiDigit, isUpperAZ] at h
  omega

theorem toUpperChar_of_not_lower {c : Char} (h : ¬ (97 ≤ c.toNat ∧ c.toNat ≤ 122)) :
    toUpperChar c = c := by
  simp [toUpperChar, h]

theorem toUpperChar_eic {c : Char} (h : isEICChar c = true) : toUpperChar c = c := by
  have := isEICChar_toNat h
  exact toUpperChar_of_not_lower (by omega)

theorem upperStr_eic {s : List Char} (h : ∀ c ∈ s, isEICChar c = true) :
    upperStr s = s := by
  unfold upperStr
  rw [List.map_congr_left (fun a ha => toUpperChar_eic (h a ha))]
  exact List.map_id s

/-- The pure character value used by the specification-side fold; agrees
with `_char_to_value` on `[0-9A-Z]`. -/
def eicCharVal (c : Char) : Nat :=
  if 48 ≤ c.toNat ∧ c.toNat ≤ 57 then c.toNat - 48 else c.toNat - 65 + 10

theorem charToValue_eic {c : Char} (h : isEICChar c = true) :
    charToValue c = .ok (eicCharVal c) := by
  have hr := isEICChar_toNat h
  unfold charToValue eicCharVal
  rcases hr with h1 | h2
  · simp only [if_pos h1]
  · have hn : ¬ (48 ≤ c.toNat ∧ c.toNat ≤ 57) := by omega
    simp only [if_neg hn, if_pos h2]

theorem charToValue_err {c : Char} (h : isEICChar c = false) :
    charToValue c = .error (.invalidChar c) := by
  simp [isEICChar, isAsciiDigit, isUpperAZ] at h
  unfold charToValue
  rw [if_neg (by omega), if_neg (by omega)]

theorem eicCharVal_le {c : Char} (h : isEICChar c = true) : eicCharVal c ≤ 35 := by
  have := isEICChar_toNat h
  unfold eicCharVal
  split <;> omega

theorem valueToChar_ok {v : Nat} (h : v ≤ 35) :
    ∃ c, valueToChar v = .ok c ∧ isEICChar c = true := by
  by_cases h9 : v ≤ 9
  · refine ⟨digitChar v, by simp [valueToChar, h9], ?_⟩
    have ht : (digitChar v).toNat = 48 + v := char_toNat_ofNat (by omega)
    simp [isEICChar, isAsciiDigit, isUpperAZ, ht]
    omega
  · refine ⟨Char.ofNat (65 + v - 10), by simp [valueToChar, h9, h], ?_⟩
    have ht : (Char.ofNat (65 + v - 10)).toNat = 65 + v - 10 :=
      char_toNat_ofNat (by omega)
    simp [isEICChar, isAsciiDigit, isUpperAZ, ht]
    omega

/-! ## The Mod 37,36 fold -/

/-- The specification-side fold: left-to-right, remainder starts at 0,
`remainder = (remainder * 36 + char_to_value c) % 37` at each step. -/
def eicRemainder (s : List Char) : Nat :=
  s.foldl (fun r c => eicStep r (eicCharVal c)) 0

theorem eicRemainderM_go_ok (s : List Char) (h : ∀ c ∈ s, isEICChar c = true)
    (r : Nat) :
    s.foldlM (fun r c => (eicStep r ·) <$> charToValue c) r =
      .ok (s.foldl (fun r c => eicStep r (eicCharVal c)) r) := by
  induction s generalizing r with
  | nil => rfl
  | cons a l ih =>
    have ha : isEICChar a = true := h a (List.mem_cons_self a l)
    have hl : ∀ c ∈ l, isEICChar c = true := fun c hc => h c (List.mem_cons_of_mem a hc)
    simp only [List.foldlM_cons, List.foldl_cons, charToValue_eic ha]
    simpa [Except.map] using ih hl (eicStep r (eicCharVal a))

theorem eicRemainderM_ok {s : List Char} (h : ∀ c ∈ s, isEICChar c = true) :
    eicRemainderM s = .ok (eicRemainder s) :=
  eicRemainderM_go_ok s h 0

theorem eicRemainderM_go_err (s : List Char) (h : ¬ ∀ c ∈ s, isEICChar c = true)
    (r : Nat) :
    ∃ c, isEICChar c = false ∧
      s.foldlM (fun r c => (eicStep r ·) <$> charToValue c) r =
        .error (.invalidChar c) := by
  induction s generalizing r with
  | nil => exact absurd (by intro c hc; cases hc) h
  | cons a l ih =>
    by_cases ha : isEICChar a = true
    · have hl : ¬ ∀ c ∈ l, isEICChar c = true := by
        intro hl
        exact h (by intro c hc; rcases List.mem_cons.mp hc with rfl | hc
                    exacts [ha, hl c hc])
      obtain ⟨c, hc, he⟩ := ih hl (eicStep r (eicCharVal a))
      refine ⟨c, hc, ?_⟩
      simp only [List.foldlM_cons, charToValue_eic ha]
      simpa [Except.map] using he
    · refine ⟨a, Bool.not_eq_true _ ▸ ha, ?_⟩
      simp only [List.foldlM_cons, charToValue_err (Bool.not_eq_true _ ▸ ha)]
      rfl

theorem eicStep_le (r v : Nat) : eicStep r v ≤ 36 :=
  Nat.le_of_lt_succ (Nat.mod_lt _ (by omega))

theorem eicRemainder_le (s : List Char) : eicRemainder s ≤ 36 := by
  unfold eicRemainder
  have : ∀ (l : List Char) (r : Nat), r ≤ 36 →
      l.foldl (fun r c => eicStep r (eicCharVal c)) r ≤ 36 := by
    intro l
    induction l with
    | nil => intro r hr; exact hr
    | cons a t ih => intro r _; exact ih _ (eicStep_le r (eicCharVal a))
  exact this s 0 (by omega)

/-- The check value computed by `calculate_eic_check_digit` after the
36→0 remap. -/
def eicCheckValue (s : List Char) : Nat :=
  if (37 - eicRemainder s) % 37 = 36 then 0 else (37 - eicRemainder s) % 37

theorem eicCheckValue_le (s : List Char) : eicCheckValue s ≤ 35 := by
  unfold eicCheckValue
  split
  · omega
  · have := Nat.mod_lt (37 - eicRemainder s) (y := 37) (by omega)
    omega

theorem calc_eic_spec {s : List Char} (h15 : s.length = 15)
    (hc : ∀ c ∈ s, isEICChar c = true) :
    calculate_eic_check_digit s = valueToChar (eicCheckValue s) := by
  unfold calculate_eic_check_digit
  rw [if_neg (by omega), upperStr_eic hc]
  rw [show eicRemainderM s = .ok (eicRemainder s) from eicRemainderM_ok hc]
  rfl

theorem calc_eic_ok {s : List Char} (h15 : s.length = 15)
    (hc : ∀ c ∈ s, isEICChar c = true) :
    ∃ k, calculate_eic_check_digit s = .ok k ∧ isEICChar k = true := by
  obtain ⟨k, hk, hke⟩ := valueToChar_ok (eicCheckValue_le s)
  exact ⟨k, by rw [calc_eic_spec h15 hc, hk], hke⟩

/-! ## Claim C1 -/

/-- C1: for every 15-character base over `[0-9A-Z]`,
`calculate_eic_check_digit` returns the character obtained by folding
left-to-right with remainder initialized to 0 and updated as
`remainder = (remainder * 36 + char_to_value c) % 37`, taking the final
check value `(37 - remainder) % 37`, remapping 36 to 0 (`eicCheckValue`),
and converting the result via `value_to_char`. -/
theorem eic_check_digit_follows_iso7064 (s : List Char) (h15 : s.length = 15)
    (hc : ∀ c ∈ s, isEICChar c = true) :
    (∀ c ∈ s, charToValue c = .ok (eicCharVal c)) ∧
    calculate_eic_check_digit s = valueToChar (eicCheckValue s) :=
  ⟨fun c hcm => charToValue_eic (hc c hcm), calc_eic_spec h15 hc⟩

/-- Witness for C1 at the base `27XGOEPS0000001`. -/
theorem eic_check_digit_follows_iso7064_witness :
    calculate_eic_check_digit
        ['2','7','X','G','O','E','P','S','0','0','0','0','0','0','1'] =
      valueToChar (eicCheckValue
        ['2','7','X','G','O','E','P','S','0','0','0','0','0','0','1']) :=
  (eic_check_digit_follows_iso7064 _ (by decide) (by decide)).2

/-! ## Claim C6 -/

/-- C6 counterexample: a 15-character input made of lowercase letters
(outside `[0-9A-Z]`) does not fail with `InvalidCharacter`: the function
uppercases before the character check and returns a check digit. -/
theorem eic_lowercase_not_rejected_cex :
    (List.replicate 15 'a').all isEICChar = false ∧
    calculate_eic_check_digit (List.replicate 15 'a') = .ok 'R' := by
  decide

/-- C6 as amended: `calculate_eic_check_digit` fails with
`InvalidLength` for every input that is not exactly 15 characters; a
15-character input is uppercased first, succeeds when the uppercased
string lies in `[0-9A-Z]`, and fails with `InvalidCharacter` when a
character survives outside `[0-9A-Z]` after uppercasing. -/
theorem calc_eic_error_handling (s : List Char) :
    (s.length ≠ 15 → calculate_eic_check_digit s = .error (.invalidLength s.length)) ∧
    (s.length = 15 → (∀ c ∈ upperStr s, isEICChar c = true) →
      ∃ k, calculate_eic_check_digit s = .ok k) ∧
    (s.length = 15 → ¬ (∀ c ∈ upperStr s, isEICChar c = true) →
      ∃ c, isEICChar c = false ∧
        calculate_eic_check_digit s = .error (.invalidChar c)) := by
  refine ⟨fun h => ?_, fun h15 hall => ?_, fun h15 hnall => ?_⟩
  · unfold calculate_eic_check_digit
    rw [if_pos h]
  · unfold calculate_eic_check_digit
    rw [if_neg (by omega)]
    rw [show eicRemainderM (upperStr s) = .ok (eicRemainder (upperStr s)) from
      eicRemainderM_ok hall]
    have hle : eicRemainder (upperStr s) ≤ 36 := eicRemainder_le _
    have hv : (if (37 - eicRemainder (upperStr s)) % 37 = 36 then 0
        else (37 - eicRemainder (upperStr s)) % 37) ≤ 35 := by
      split
      · omega
      · have := Nat.mod_lt (37 - eicRemainder (upperStr s)) (y := 37) (by omega)
        omega
    obtain ⟨k, hk, _⟩ := valueToChar_ok hv
    exact ⟨k, hk⟩
  · unfold calculate_eic_check_digit
    rw [if_neg (by omega)]
    obtain ⟨c, hc, he⟩ := eicRemainderM_go_err (upperStr s) hnall 0
    have he' : eicRemainderM (upperStr s) = .error (.invalidChar c) := he
    refine ⟨c, hc, ?_⟩
    rw [he']
    rfl

/-- Witness for C6 as amended: the empty string fails with
`InvalidLength 0`, and 15 hyphens fail with `InvalidCharacter`. -/
theorem calc_eic_error_handling_witness :
    calculate_eic_check_digit [] = .error (.invalidLength 0) ∧
    (∃ c, isEICChar c = false ∧
      calculate_eic_check_digit (List.replicate 15 '-') =
        .error (.invalidChar c)) :=
  ⟨(calc_eic_error_handling []).1 (by decide),
   (calc_eic_error_handling (List.replicate 15 '-')).2.2 (by decide) (by decide)⟩

/-! ## Claim C7 -/

/-- C7 counterexample: the base `000000000000001` is 15 characters over
`[0-9A-Z]`, its fold remainder is 1, and the computed check value
`(37 - 1) % 37` equals 36 — so the 36→0 branch is reached. -/
theorem eic_remap_branch_reachable_cex :
    ['0','0','0','0','0','0','0','0','0','0','0','0','0','0','1'].all
        isEICChar = true ∧
    eicRemainderM ['0','0','0','0','0','0','0','0','0','0','0','0','0','0','1'] =
      .ok 1 ∧
    (37 - 1) % 37 = 36 := by
  decide

/-- C7 as amended: the explicit 36→0 remap branch is live, not dead:
there is a 15-character base over `[0-9A-Z]` whose check value
`(37 - remainder) % 37` equals 36, and on it the remap makes
`calculate_eic_check_digit` return `'0'`. -/
theorem eic_remap_branch_reachable :
    ∃ b : List Char, b.length = 15 ∧ b.all isEICChar = true ∧
      (37 - eicRemainder b) % 37 = 36 ∧
      calculate_eic_check_digit b = .ok '0' :=
  ⟨['0','0','0','0','0','0','0','0','0','0','0','0','0','0','1'],
   by decide, by decide, by decide, by decide⟩

/-! ## Claim C3 -/

theorem eicChar_ne_sep {c : Char} (h : isEICChar c = true) :
    c ≠ '-' ∧ c ≠ ' ' := by
  constructor <;> rintro rfl <;> exact absurd h (by decide)

theorem cleanEIC_fixed {s : List Char} (h : ∀ c ∈ s, isEICChar c = true) :
    cleanEIC s = s := by
  unfold cleanEIC
  rw [List.filter_eq_self.mpr (fun a ha => by
    simpa using eicChar_ne_sep (h a ha))]
  exact upperStr_eic h

theorem all_append_eic {b : List Char} {k : Char}
    (hcb : ∀ c ∈ b, isEICChar c = true) (hk : isEICChar k = true) :
    ∀ c ∈ b ++ [k], isEICChar c = true := by
  intro c hc
  rcases List.mem_append.mp hc with h | h
  · exact hcb c h
  · rcases List.mem_singleton.mp h with rfl
    exact hk

theorem parse_eic_append {b : List Char} {k : Char} (hb : b.length = 15)
    (hcb : ∀ c ∈ b, isEICChar c = true) (hk : isEICChar k = true) :
    parse_eic_components (b ++ [k]) =
      some { office_id := b.take 2
             entity_type := b.get ⟨2, by omega⟩
             individual_id := b.drop 3
             check_digit := k } := by
  have hlen : (b ++ [k]).length = 16 := by simp [hb]
  have hall := all_append_eic hcb hk
  have hup : upperStr (b ++ [k]) = b ++ [k] := upperStr_eic hall
  unfold parse_eic_components
  rw [dif_pos hlen]
  simp only [List.get_eq_getElem, Option.some.injEq, EICComponents.mk.injEq,
    upperStr, List.getElem_map]
  have hup2 : List.map toUpperChar (b ++ [k]) = b ++ [k] := hup
  refine ⟨?_, ?_, ?_, ?_⟩
  · rw [hup2]
    exact List.take_append_of_le_length (by omega)
  · rw [List.getElem_append_left (by omega)]
    exact toUpperChar_eic (hcb _ (List.getElem_mem _))
  · rw [hup2]
    rw [List.drop_append_of_le_length (by omega),
      List.take_append_of_le_length (by simp [hb]),
      List.take_of_length_le (by simp [hb])]
  · rw [List.getElem_append_right (by omega)]
    have h0 : 15 - b.length = 0 := by omega
    simp only [h0, List.getElem_cons_zero]
    exact toUpperChar_eic hk

theorem validate_check_append {b : List Char} {k : Char} (hb : b.length = 15)
    (hcb : ∀ c ∈ b, isEICChar c = true) (hk : isEICChar k = true)
    (hcd : calculate_eic_check_digit b = .ok k) :
    validate_eic_check_digit (b ++ [k]) = true := by
  have hall := all_append_eic hcb hk
  unfold validate_eic_check_digit
  rw [if_neg (show ¬ (b ++ [k]).length ≠ 16 by simp [hb])]
  rw [upperStr_eic hall]
  rw [List.take_append_of_le_length (by omega), List.take_of_length_le (by omega),
    hcd]
  simp [List.getLastD_concat]

theorem validate_format_append {b : List Char} {k : Char} (hb : b.length = 15)
    (hcb : ∀ c ∈ b, isEICChar c = true) (hk : isEICChar k = true)
    (hcd : calculate_eic_check_digit b = .ok k) :
    validate_eic_format (b ++ [k]) =
      { is_valid := true, errors := [],
        components := some { office_id := b.take 2
                             entity_type := b.get ⟨2, by omega⟩
                             individual_id := b.drop 3
                             check_digit := k } } := by
  have hall := all_append_eic hcb hk
  have hclean : cleanEIC (b ++ [k]) = b ++ [k] := cleanEIC_fixed hall
  have hlen : (b ++ [k]).length = 16 := by simp [hb]
  have hfull : matchesEICFull (b ++ [k]) = true := by
    simp only [matchesEICFull, Bool.and_eq_true, beq_iff_eq, List.all_eq_true]
    exact ⟨hlen, hall⟩
  have hoffice : matchesOffice (b.take 2) = true := by
    simp only [matchesOffice, Bool.and_eq_true, beq_iff_eq, List.all_eq_true]
    exact ⟨by rw [List.length_take]; omega,
      fun c hc => hcb c (List.take_subset 2 b hc)⟩
  have hentity : matchesEntity (b.get ⟨2, by omega⟩) = true := by
    simp only [matchesEntity, List.get_eq_getElem]
    exact hcb _ (List.getElem_mem _)
  simp only [List.get_eq_getElem] at hentity
  have hindiv : matchesIndividual (b.drop 3) = true := by
    simp only [matchesIndividual, Bool.and_eq_true, beq_iff_eq, List.all_eq_true]
    exact ⟨by rw [List.length_drop]; omega,
      fun c hc => hcb c (List.drop_subset 3 b hc)⟩
  have hcheck := validate_check_append hb hcb hk hcd
  have herr : eicFieldErrors (b ++ [k])
      { office_id := b.take 2, entity_type := b.get ⟨2, by omega⟩,
        individual_id := b.drop 3, check_digit := k } = [] := by
    unfold eicFieldErrors
    rw [if_neg (by simp [hoffice]), if_neg (by simp [hentity]),
      if_neg (by simp [hindiv]), if_neg (by simp [hcheck])]
    rfl
  unfold validate_eic_format
  rw [hclean]
  rw [if_neg (show ¬ (b ++ [k]).length ≠ 16 by simp [hb])]
  rw [if_neg (show ¬¬(matchesEICFull (b ++ [k]) = true) by simp [hfull])]
  rw [parse_eic_append hb hcb hk]
  simp only [herr]
  rfl

/-- C3: for every 15-character string `b` over `[0-9A-Z]`, the check
digit is a single character in `[0-9A-Z]`, and `validate_eic_format` on
`b ++ [check digit]` reports valid, with an empty error list and
components whose office id is `b[0..1]`, entity type `b[2]`, individual
id `b[3..14]`, and whose `base` equals `b`. -/
theorem eic_roundtrip_validates (b : List Char) (hb : b.length = 15)
    (hcb : ∀ c ∈ b, isEICChar c = true) :
    ∃ k, calculate_eic_check_digit b = .ok k ∧ isEICChar k = true ∧
      (validate_eic_format (b ++ [k])).is_valid = true ∧
      (validate_eic_format (b ++ [k])).errors = [] ∧
      ∃ comp, (validate_eic_format (b ++ [k])).components = some comp ∧
        comp.office_id = b.take 2 ∧
        comp.entity_type = b.get ⟨2, by omega⟩ ∧
        comp.individual_id = b.drop 3 ∧
        comp.base = b := by
  obtain ⟨k, hk, hke⟩ := calc_eic_ok hb hcb
  have hfmt := validate_format_append hb hcb hke hk
  refine ⟨k, hk, hke, by rw [hfmt], by rw [hfmt], ?_⟩
  refine ⟨_, by rw [hfmt], rfl, rfl, rfl, ?_⟩
  show b.take 2 ++ b.get ⟨2, by omega⟩ :: b.drop 3 = b
  have h1 : b.take 2 ++ b.drop 2 = b := List.take_append_drop 2 b
  have h2 : b.drop 2 = b.get ⟨2, by omega⟩ :: b.drop 3 := by
    simp only [List.get_eq_getElem]
    exact List.drop_eq_getElem_cons (by omega)
  rw [← h2, h1]

/-- Witness for C3 at the base `27XGOEPS0000001` (check digit `'H'`). -/
theorem eic_roundtrip_validates_witness :
    (validate_eic_format
      (['2','7','X','G','O','E','P','S','0','0','0','0','0','0','1'] ++
        ['H'])).is_valid = true := by
  obtain ⟨k, hk, -, hv, -⟩ := eic_roundtrip_validates
    ['2','7','X','G','O','E','P','S','0','0','0','0','0','0','1']
    (by decide) (by decide)
  have hkH : k = 'H' := by
    have h2 : (Except.ok k : Except EICErr Char) = .ok 'H' := by
      rw [← hk]; decide
    injection h2
  subst hkH
  exact hv

/-! ## Claim C5 -/

theorem validate_eic_format_components_isSome (s : List Char) :
    (validate_eic_format s).components.isSome = (validate_eic_format s).is_valid := by
  unfold validate_eic_format
  split
  · rfl
  · split
    · rfl
    · split
      · rfl
      · dsimp only
        split <;> simp_all

/-- C5 counterexample: on input `"a"` the reported `eic_code` is the raw
string `"a"`, not the normalized `"A"`, because normalization is only
reported when the cleaned string has length 16. -/
theorem is_valid_eic_normalization_cex :
    cleanEIC ['a'] = ['A'] ∧ (is_valid_eic ['a']).eic_code = ['a'] ∧
      (is_valid_eic ['a']).eic_code ≠ cleanEIC ['a'] := by
  decide

/-- C5 as amended: `is_valid_eic` reports the normalized code only when
the normalized form is exactly 16 characters, and the original raw
string otherwise; parsed components are present exactly when the code is
valid. -/
theorem is_valid_eic_reports_code_and_components (raw : List Char) :
    (is_valid_eic raw).eic_code =
      (if (cleanEIC raw).length = 16 then cleanEIC raw else raw) ∧
    (is_valid_eic raw).components.isSome = (is_valid_eic raw).is_valid :=
  ⟨rfl, validate_eic_format_components_isSome raw⟩

/-! ## Claim C8 -/

theorem toUpperChar_idem (c : Char) : toUpperChar (toUpperChar c) = toUpperChar c := by
  unfold toUpperChar
  by_cases h : 97 ≤ c.toNat ∧ c.toNat ≤ 122
  · rw [if_pos h]
    have ht : (Char.ofNat (c.toNat - 32)).toNat = c.toNat - 32 :=
      char_toNat_ofNat (by omega)
    rw [if_neg (by rw [ht]; omega)]
  · rw [if_neg h, if_neg h]

theorem upperStr_idem (s : List Char) : upperStr (upperStr s) = upperStr s := by
  unfold upperStr
  rw [List.map_map]
  exact List.map_congr_left fun a _ => toUpperChar_idem a

/-- C8: `generate_eic` fails with `InvalidCountryCode` whenever the
uppercased country code is not 2 characters or not in the office-code
registry (regardless of the entity type, i.e. the country check comes
first), and fails with `InvalidEntityType` whenever the country code is
valid but the uppercased entity type is not 1 character or not in the
entity-type registry; in particular `generate_eic "99" "X"` fails with
`InvalidCountryCode` and `generate_eic "27" "Q"` with
`InvalidEntityType`. -/
theorem generate_eic_registry_rejection (cc et ident : List Char) :
    ((upperStr cc).length ≠ 2 ∨
        VALID_COUNTRY_CODES.contains (upperStr cc) = false →
      generate_eic cc et ident = .error .invalidCountryCode) ∧
    (is_valid_country_code (upperStr cc) = true →
      ¬ ((upperStr et).length = 1 ∧
          (upperStr et).all (VALID_ENTITY_TYPES.contains ·) = true) →
      generate_eic cc et ident = .error .invalidEntityType) ∧
    generate_eic ['9','9'] ['X'] ident = .error .invalidCountryCode ∧
    generate_eic ['2','7'] ['Q'] ident = .error .invalidEntityType := by
  refine ⟨fun h => ?_, fun h1 h2 => ?_, ?_, ?_⟩
  · have hcc : is_valid_country_code (upperStr cc) = false := by
      unfold is_valid_country_code
      rw [upperStr_idem]
      rcases h with h | h
      · have hb : ((upperStr cc).length == 2) = false := by simpa using h
        rw [hb, Bool.false_and]
      · rw [h, Bool.and_false]
    unfold generate_eic
    rw [if_pos (by simp [hcc])]
  · have het : is_valid_entity_type (upperStr et) = false := by
      unfold is_valid_entity_type
      rw [upperStr_idem]
      rcases Decidable.not_and_iff_or_not.mp h2 with h | h
      · have hb : ((upperStr et).length == 1) = false := by simpa using h
        rw [hb, Bool.false_and]
      · have hb : (upperStr et).all (VALID_ENTITY_TYPES.contains ·) = false :=
          Bool.eq_false_iff.mpr h
        rw [hb, Bool.and_false]
    unfold generate_eic
    rw [if_neg (by simp [h1]), if_pos (by simp [het])]
  · unfold generate_eic
    rw [if_pos (by decide)]
  · unfold generate_eic
    rw [if_neg (by decide), if_pos (by decide)]

/-- Witness for C8 at `("99","X")` and `("27","Q")` with an empty
identifier draw. -/
theorem generate_eic_registry_rejection_witness :
    generate_eic ['9','9'] ['X'] [] = .error .invalidCountryCode ∧
    generate_eic ['2','7'] ['Q'] [] = .error .invalidEntityType :=
  ⟨(generate_eic_registry_rejection ['9','9'] ['X'] []).1 (Or.inr (by decide)),
   (generate_eic_registry_rejection ['2','7'] ['Q'] []).2.1 (by decide)
     (by decide)⟩

/-! ## Claim C10 -/

/-- C10: `generate_ean` is case-insensitive in its `ean_type` argument —
uppercasing the type first never changes the outcome — and in particular
`generate_ean "1234567" "ean-8"` succeeds with `"12345670"`. -/
theorem generate_ean_type_case_insensitive (base t : List Char) :
    generate_ean base t = generate_ean base (upperStr t) ∧
    generate_ean ['1','2','3','4','5','6','7'] ['e','a','n','-','8'] =
      .ok ['1','2','3','4','5','6','7','0'] := by
  constructor
  · unfold generate_ean
    rw [upperStr_idem]
  · decide

/-! ## Claim C2 -/

/-- The specification-side weighted sum: digits are taken from the
rightmost one, position 1 = rightmost (the first list element here),
and odd right-to-left positions weigh 3, even positions weigh 1. -/
def rtlSum : List Nat → Nat → Nat
  | [], _ => 0
  | d :: ds, p => d * (if p % 2 = 1 then 3 else 1) + rtlSum ds (p + 1)

/-- The specification-side EAN weighted sum over a digit-value list. -/
def eanSpecSum (ds : List Nat) : Nat := rtlSum ds.reverse 1

theorem eanSumRev_eq_rtlSum (l : List Nat) (i : Nat) :
    eanSumRev l i = rtlSum l (i + 1) := by
  induction l generalizing i with
  | nil => rfl
  | cons d ds ih =>
    unfold eanSumRev rtlSum
    rw [ih (i + 1)]
    by_cases hi : i % 2 = 0
    · rw [if_pos hi, if_pos (by omega)]
    · rw [if_neg hi, if_neg (by omega)]

/-- C2: for every digit string of length 7, 12 or 13 the EAN checksum is
`(10 - (sum % 10)) % 10` where the sum weighs digits by right-to-left
position (odd positions 3, even positions 1, `eanSpecSum`); with the
concrete vectors `checksum "1234567" = '0'`,
`generate_ean "1234567" EAN-8 = "12345670"` and
`generate_ean "400638133393" EAN-13 = "4006381333931"`. -/
theorem ean_checksum_algorithm :
    (∀ d : List Char, isdigitStr d = true →
      d.length = 7 ∨ d.length = 12 ∨ d.length = 13 →
      calculate_ean_check_digit d =
        .ok (digitChar ((10 - eanSpecSum (d.map digitVal) % 10) % 10))) ∧
    calculate_ean_check_digit ['1','2','3','4','5','6','7'] = .ok '0' ∧
    generate_ean ['1','2','3','4','5','6','7'] (eanTypeStr .ean8) =
      .ok ['1','2','3','4','5','6','7','0'] ∧
    generate_ean ['4','0','0','6','3','8','1','3','3','3','9','3']
        (eanTypeStr .ean13) =
      .ok ['4','0','0','6','3','8','1','3','3','3','9','3','1'] := by
  refine ⟨fun d hd hlen => ?_, by decide, by decide, by decide⟩
  unfold calculate_ean_check_digit
  rw [if_neg (by simp [hd]), if_neg (not_not_intro hlen)]
  rw [eanSumRev_eq_rtlSum]
  rfl

/-- Witness for C2 at the data part `1234567`. -/
theorem ean_checksum_algorithm_witness :
    calculate_ean_check_digit ['1','2','3','4','5','6','7'] =
      .ok (digitChar ((10 -
        eanSpecSum (['1','2','3','4','5','6','7'].map digitVal) % 10) % 10)) :=
  ean_checksum_algorithm.1 ['1','2','3','4','5','6','7'] (by decide)
    (by decide)

/-! ## Claim C4 -/

/-- The data-part length of each EAN format. -/
def eanDataLen : EANFormat → Nat
  | .ean8 => 7
  | .ean13 => 12
  | .ean14 => 13

theorem isdigitStr_all {s : List Char} (h : isdigitStr s = true) :
    ∀ c ∈ s, isAsciiDigit c = true := by
  simp only [isdigitStr, Bool.and_eq_true, List.all_eq_true] at h
  exact h.2

theorem isAsciiDigit_digitChar {v : Nat} (h : v ≤ 9) :
    isAsciiDigit (digitChar v) = true := by
  have ht : (digitChar v).toNat = 48 + v := char_toNat_ofNat (by omega)
  simp only [isAsciiDigit, ht, Bool.and_eq_true, decide_eq_true_eq]
  omega

theorem calc_ean_ok {d : List Char} (hd : isdigitStr d = true)
    (hlen : d.length = 7 ∨ d.length = 12 ∨ d.length = 13) :
    ∃ v, v ≤ 9 ∧ calculate_ean_check_digit d = .ok (digitChar v) := by
  refine ⟨(10 - eanSumRev (d.map digitVal).reverse 0 % 10) % 10,
    Nat.le_of_lt_succ (Nat.mod_lt _ (by omega)), ?_⟩
  unfold calculate_ean_check_digit
  rw [if_neg (by simp [hd]), if_neg (not_not_intro hlen)]

theorem isdigitStr_append {d : List Char} {c : Char}
    (hd : isdigitStr d = true) (hc : isAsciiDigit c = true) :
    isdigitStr (d ++ [c]) = true := by
  simp only [isdigitStr, Bool.and_eq_true, List.all_eq_true] at hd ⊢
  refine ⟨by simp, fun x hx => ?_⟩
  rcases List.mem_append.mp hx with h | h
  · exact hd.2 x h
  · rcases List.mem_singleton.mp h with rfl
    exact hc

theorem digit_ne_sep {c : Char} (h : isAsciiDigit c = true) :
    c ≠ '-' ∧ c ≠ ' ' := by
  constructor <;> rintro rfl <;> exact absurd h (by decide)

theorem isPyWS_eq_false_of_digit {c : Char} (h : isAsciiDigit c = true) :
    isPyWS c = false := by
  by_contra hws
  rw [Bool.not_eq_false] at hws
  simp only [isPyWS, Bool.or_eq_true, beq_iff_eq] at hws
  rcases hws with ((((h1 | h1) | h1) | h1) | h1) | h1 <;> subst h1 <;>
    exact absurd h (by decide)

theorem dropWhile_eq_self_of_all_false {p : Char → Bool} {s : List Char}
    (h : ∀ c ∈ s, p c = false) : s.dropWhile p = s := by
  cases s with
  | nil => rfl
  | cons a t => simp [List.dropWhile_cons, h a (List.mem_cons_self a t)]

theorem cleanEAN_fixed {s : List Char} (h : ∀ c ∈ s, isAsciiDigit c = true) :
    cleanEAN s = s := by
  unfold cleanEAN
  rw [List.filter_eq_self.mpr (fun a ha => by simpa using digit_ne_sep (h a ha))]
  unfold pyStrip
  rw [dropWhile_eq_self_of_all_false
    (fun c hc => isPyWS_eq_false_of_digit (h c hc))]
  rw [dropWhile_eq_self_of_all_false
    (fun c hc => isPyWS_eq_false_of_digit (h c (List.mem_reverse.mp hc)))]
  exact List.reverse_reverse s

theorem parse_ean_append {d : List Char} {c : Char} {f : EANFormat}
    (hd : isdigitStr d = true) (hc : isAsciiDigit c = true)
    (hlen : d.length = eanDataLen f) :
    parse_ean_components (d ++ [c]) = some ⟨d, c, f⟩ := by
  unfold parse_ean_components
  rw [if_neg (not_not_intro (isdigitStr_append hd hc))]
  rw [List.getLast?_concat]
  cases f
  · rw [show (d ++ [c]).length = 8 by simp [hlen, eanDataLen]]
    simp [List.dropLast_concat]
  · rw [show (d ++ [c]).length = 13 by simp [hlen, eanDataLen]]
    simp [List.dropLast_concat]
  · rw [show (d ++ [c]).length = 14 by simp [hlen, eanDataLen]]
    simp [List.dropLast_concat]

theorem validate_ean_check_append {d : List Char} {c : Char}
    (hd : isdigitStr d = true) (hc : isAsciiDigit c = true)
    (hlen : d.length = 7 ∨ d.length = 12 ∨ d.length = 13)
    (hcd : calculate_ean_check_digit d = .ok c) :
    validate_ean_check_digit (d ++ [c]) = true := by
  unfold validate_ean_check_digit
  rw [if_neg (not_not_intro (isdigitStr_append hd hc))]
  rw [if_neg (not_not_intro (by rcases hlen with h | h | h <;> simp [h]))]
  rw [List.dropLast_concat, hcd]
  simp [List.getLast?_concat]

theorem validate_ean_format_append {d : List Char} {c : Char} {f : EANFormat}
    (hd : isdigitStr d = true) (hc : isAsciiDigit c = true)
    (hlen : d.length = eanDataLen f)
    (hcd : calculate_ean_check_digit d = .ok c) :
    validate_ean_format (d ++ [c]) =
      { is_valid := true, format := some f, errors := [],
        components := some ⟨d, c, f⟩ } := by
  have hall : ∀ x ∈ d ++ [c], isAsciiDigit x = true := by
    intro x hx
    rcases List.mem_append.mp hx with h | h
    · exact isdigitStr_all hd x h
    · rcases List.mem_singleton.mp h with rfl
      exact hc
  have hlen3 : d.length = 7 ∨ d.length = 12 ∨ d.length = 13 := by
    cases f <;> simp [hlen, eanDataLen]
  unfold validate_ean_format
  rw [cleanEAN_fixed hall]
  rw [if_neg (not_not_intro (isdigitStr_append hd hc))]
  rw [if_neg (not_not_intro (by rcases hlen3 with h | h | h <;> simp [h]))]
  rw [parse_ean_append hd hc hlen]
  dsimp only
  rw [if_neg (not_not_intro (validate_ean_check_append hd hc hlen3 hcd))]

theorem ean_gen_valid {d : List Char} {f : EANFormat}
    (hd : isdigitStr d = true) (hlen : d.length = eanDataLen f) :
    ∃ c, isAsciiDigit c = true ∧
      generate_ean d (eanTypeStr f) = .ok (d ++ [c]) ∧
      validate_ean (d ++ [c]) = (true, some f, none) := by
  obtain ⟨v, hv, hcd⟩ := calc_ean_ok hd (by cases f <;> simp [hlen, eanDataLen])
  have hcdig := isAsciiDigit_digitChar hv
  refine ⟨digitChar v, hcdig, ?_, ?_⟩
  · unfold generate_ean
    have hup : upperStr (eanTypeStr f) = eanTypeStr f := by cases f <;> decide
    rw [hup]
    have hvb : validate_base_code d (eanTypeStr f) = .ok () := by
      unfold validate_base_code
      rw [if_neg (not_not_intro
        (show is_valid_ean_type (eanTypeStr f) = true by cases f <;> decide))]
      rw [if_neg (not_not_intro hd)]
      rw [if_neg (not_not_intro
        (show d.length = eanExpectedLength (eanTypeStr f) by
          rw [hlen]; cases f <;> rfl))]
    rw [hvb, hcd]
  · rw [show validate_ean (d ++ [digitChar v]) =
      (if (validate_ean_format (d ++ [digitChar v])).is_valid then
        (true, (validate_ean_format (d ++ [digitChar v])).format, none)
      else (false, none, some (validate_ean_format (d ++ [digitChar v])).errors))
      from rfl]
    rw [validate_ean_format_append hd hcdig hlen hcd]
    rfl

/-- C4: for every well-formed base/format pair (`d` all digits with the
data length of `f`), `generate_ean` succeeds by appending a digit check
character, and `validate_ean` on the result reports valid with the
format inferred from the total length equal to `f` and a null error. -/
theorem ean_roundtrip_validates (d : List Char) (f : EANFormat)
    (hd : isdigitStr d = true) (hlen : d.length = eanDataLen f) :
    ∃ c, isAsciiDigit c = true ∧
      generate_ean d (eanTypeStr f) = .ok (d ++ [c]) ∧
      validate_ean (d ++ [c]) = (true, some f, none) :=
  ean_gen_valid hd hlen

/-- Witness for C4 at the base `1234567` with format EAN-8. -/
theorem ean_roundtrip_validates_witness :
    validate_ean ['1','2','3','4','5','6','7','0'] = (true, some .ean8, none) := by
  obtain ⟨c, -, hg, hv⟩ := ean_roundtrip_validates ['1','2','3','4','5','6','7']
    .ean8 (by decide) (by decide)
  have hgc : generate_ean ['1','2','3','4','5','6','7'] (eanTypeStr .ean8) =
      .ok ['1','2','3','4','5','6','7','0'] := by decide
  rw [hg] at hgc
  have hlist : ['1','2','3','4','5','6','7'] ++ [c] =
      ['1','2','3','4','5','6','7','0'] := by injection hgc
  rw [hlist] at hv
  exact hv

/-! ## Claim C9 -/

theorem country_registry_wellformed :
    ∀ x ∈ VALID_COUNTRY_CODES, x.length = 2 ∧ ∀ c ∈ x, isEICChar c = true := by
  decide

theorem entity_registry_wellformed :
    ∀ c ∈ VALID_ENTITY_TYPES, isEICChar c = true := by
  decide

theorem eic_gen_valid {cc et ident : List Char}
    (hcc : is_valid_country_code (upperStr cc) = true)
    (het : is_valid_entity_type (upperStr et) = true)
    (hid : ident.length = 12) (hidc : ∀ c ∈ ident, isEICChar c = true) :
    ∃ k, isEICChar k = true ∧
      generate_eic cc et ident =
        .ok (upperStr cc ++ upperStr et ++ ident ++ [k]) ∧
      (validate_eic_format
        (upperStr cc ++ upperStr et ++ ident ++ [k])).is_valid = true := by
  have hccp : upperStr cc ∈ VALID_COUNTRY_CODES := by
    simp only [is_valid_country_code, Bool.and_eq_true, beq_iff_eq] at hcc
    rw [upperStr_idem] at hcc
    exact List.elem_iff.mp hcc.2
  have hccl : (upperStr cc).length = 2 := (country_registry_wellformed _ hccp).1
  have hccc : ∀ c ∈ upperStr cc, isEICChar c = true :=
    (country_registry_wellformed _ hccp).2
  have hetl : (upperStr et).length = 1 := by
    simp only [is_valid_entity_type, Bool.and_eq_true, beq_iff_eq] at het
    exact het.1
  have hetc : ∀ c ∈ upperStr et, isEICChar c = true := by
    simp only [is_valid_entity_type, Bool.and_eq_true, beq_iff_eq,
      List.all_eq_true] at het
    intro c hc
    have := het.2 c (by rw [upperStr_idem]; exact hc)
    exact entity_registry_wellformed c (List.elem_iff.mp this)
  have hb : (upperStr cc ++ upperStr et ++ ident).length = 15 := by
    simp [hccl, hetl, hid]
  have hbc : ∀ c ∈ upperStr cc ++ upperStr et ++ ident, isEICChar c = true := by
    intro c hc
    rcases List.mem_append.mp hc with h | h
    · rcases List.mem_append.mp h with h2 | h2
      · exact hccc c h2
      · exact hetc c h2
    · exact hidc c h
  obtain ⟨k, hk, hke⟩ := calc_eic_ok hb hbc
  have hfmt := validate_format_append hb hbc hke hk
  refine ⟨k, hke, ?_, ?_⟩
  · unfold generate_eic
    rw [if_neg (not_not_intro hcc), if_neg (not_not_intro het), hk]
  · rw [hfmt]

theorem eanLoop_invariant {f : EANFormat} {draws : Nat → List Char} {n : Nat}
    (hdraws : ∀ i, isdigitStr (draws i) = true ∧ (draws i).length = eanDataLen f) :
    ∀ (fuel i : Nat) (acc l : List (List Char)),
      acc.Nodup → (∀ x ∈ acc, (validate_ean x).1 = true) → acc.length ≤ n →
      eanLoop (eanTypeStr f) draws n acc i fuel = .ok l →
      l.Nodup ∧ (∀ x ∈ l, (validate_ean x).1 = true) ∧ l.length = n := by
  intro fuel
  induction fuel with
  | zero =>
    intro i acc l hnd hP hle hok
    unfold eanLoop at hok
    split at hok
    · cases hok
      exact ⟨hnd, hP, by omega⟩
    · cases hok
  | succ fuel ih =>
    intro i acc l hnd hP hle hok
    unfold eanLoop at hok
    split at hok
    · cases hok
      exact ⟨hnd, hP, by omega⟩
    · rename_i hlt
      obtain ⟨c, hc, hg, hv⟩ := ean_gen_valid (hdraws i).1 (hdraws i).2
      have hgr : generate_random_ean (eanTypeStr f) (draws i) =
          .ok (draws i ++ [c]) := by
        unfold generate_random_ean
        rw [show upperStr (eanTypeStr f) = eanTypeStr f by cases f <;> decide]
        rw [if_neg (not_not_intro
          (show is_valid_ean_type (eanTypeStr f) = true by cases f <;> decide))]
        exact hg
      split at hok
      · rename_i e heq
        rw [hgr] at heq
        cases heq
      rename_i code heq
      rw [hgr] at heq
      injection heq with heq2
      subst heq2
      by_cases hmem : acc.contains (draws i ++ [c]) = true
      · rw [if_pos hmem] at hok
        exact ih (i + 1) acc l hnd hP hle hok
      · rw [if_neg hmem] at hok
        refine ih (i + 1) _ l ?_ ?_ ?_ hok
        · exact List.nodup_cons.mpr
            ⟨fun hm => hmem (List.elem_iff.mpr hm), hnd⟩
        · intro x hx
          rcases List.mem_cons.mp hx with rfl | hx
          · rw [hv]
          · exact hP x hx
        · simp only [List.length_cons]
          omega

theorem eicLoop_invariant {cc et : List Char} {draws : Nat → List Char} {n : Nat}
    (hcc : is_valid_country_code (upperStr cc) = true)
    (het : is_valid_entity_type (upperStr et) = true)
    (hdraws : ∀ i, (draws i).length = 12 ∧ ∀ c ∈ draws i, isEICChar c = true) :
    ∀ (fuel i : Nat) (acc l : List (List Char)),
      acc.Nodup → (∀ x ∈ acc, (validate_eic_format x).is_valid = true) →
      acc.length ≤ n →
      eicLoop cc et draws n acc i fuel = .ok l →
      l.Nodup ∧ (∀ x ∈ l, (validate_eic_format x).is_valid = true) ∧
        l.length = n := by
  intro fuel
  induction fuel with
  | zero =>
    intro i acc l hnd hP hle hok
    unfold eicLoop at hok
    split at hok
    · cases hok
      exact ⟨hnd, hP, by omega⟩
    · cases hok
  | succ fuel ih =>
    intro i acc l hnd hP hle hok
    unfold eicLoop at hok
    split at hok
    · cases hok
      exact ⟨hnd, hP, by omega⟩
    · rename_i hlt
      obtain ⟨k, hk, hg, hv⟩ := eic_gen_valid hcc het (hdraws i).1 (hdraws i).2
      split at hok
      · rename_i e heq
        rw [hg] at heq
        cases heq
      rename_i code heq
      rw [hg] at heq
      injection heq with heq2
      subst heq2
      by_cases hmem :
          acc.contains (upperStr cc ++ upperStr et ++ draws i ++ [k]) = true
      · rw [if_pos hmem] at hok
        exact ih (i + 1) acc l hnd hP hle hok
      · rw [if_neg hmem] at hok
        refine ih (i + 1) _ l ?_ ?_ ?_ hok
        · exact List.nodup_cons.mpr
            ⟨fun hm => hmem (List.elem_iff.mpr hm), hnd⟩
        · intro x hx
          rcases List.mem_cons.mp hx with rfl | hx
          · exact hv
          · exact hP x hx
        · simp only [List.length_cons]
          omega

/-- C9: both bulk generators reject a non-positive count with the
`InvalidCount` condition, independently of the random draws; for a
positive count with valid parameters, whenever the retry loop terminates
with a result, that result holds exactly `count` distinct codes, each of
which independently validates. -/
theorem bulk_generation_count_and_validity
    (t cc et : List Char) (count : Int) (draws : Nat → List Char)
    (fuel : Nat) (f : EANFormat) (l : List (List Char)) :
    (count ≤ 0 →
      generate_multiple_eans t count draws fuel = .error .invalidCount) ∧
    (count ≤ 0 →
      generate_multiple_eics cc et count draws fuel = .error .invalidCount) ∧
    (0 < count →
      (∀ i, isdigitStr (draws i) = true ∧ (draws i).length = eanDataLen f) →
      generate_multiple_eans (eanTypeStr f) count draws fuel = .ok l →
      l.length = count.toNat ∧ l.Nodup ∧
        ∀ x ∈ l, (validate_ean x).1 = true) ∧
    (0 < count →
      is_valid_country_code (upperStr cc) = true →
      is_valid_entity_type (upperStr et) = true →
      (∀ i, (draws i).length = 12 ∧ ∀ c ∈ draws i, isEICChar c = true) →
      generate_multiple_eics cc et count draws fuel = .ok l →
      l.length = count.toNat ∧ l.Nodup ∧
        ∀ x ∈ l, (validate_eic_format x).is_valid = true) := by
  refine ⟨fun h => ?_, fun h => ?_, fun hpos hdraws hok => ?_, ?_⟩
  · unfold generate_multiple_eans
    rw [if_pos h]
  · unfold generate_multiple_eics
    rw [if_pos h]
  · unfold generate_multiple_eans at hok
    rw [if_neg (by omega)] at hok
    rw [if_neg (not_not_intro (show is_valid_ean_type
      (upperStr (eanTypeStr f)) = true by cases f <;> decide))] at hok
    rw [show upperStr (eanTypeStr f) = eanTypeStr f by cases f <;> decide] at hok
    obtain ⟨hnd, hP, hlen⟩ := eanLoop_invariant hdraws fuel 0 [] l
      List.nodup_nil (by intro x hx; cases hx) (Nat.zero_le _) hok
    exact ⟨hlen, hnd, hP⟩
  · intro hpos hcc het hdraws hok
    unfold generate_multiple_eics at hok
    rw [if_neg (by omega)] at hok
    obtain ⟨hnd, hP, hlen⟩ := eicLoop_invariant hcc het hdraws fuel 0 [] l
      List.nodup_nil (by intro x hx; cases hx) (Nat.zero_le _) hok
    exact ⟨hlen, hnd, hP⟩

/-- Witness for C9: count `-1` is rejected by both generators; with
count `1` and one draw of fuel, the EAN-8 generator returns exactly the
one valid code `12345670` and the EIC generator (country `27`, entity
`X`, identifier `AAAAAAAAAAAA`) exactly the one valid code
`27XAAAAAAAAAAAA9`. -/
theorem bulk_generation_count_and_validity_witness :
    generate_multiple_eans ['E'] (-1) (fun _ => []) 0 = .error .invalidCount ∧
    generate_multiple_eics ['2','7'] ['X'] (-1) (fun _ => []) 0 =
      .error .invalidCount ∧
    ([['1','2','3','4','5','6','7','0']].length = (1 : Int).toNat ∧
      [['1','2','3','4','5','6','7','0']].Nodup ∧
      ∀ x ∈ [['1','2','3','4','5','6','7','0']], (validate_ean x).1 = true) ∧
    ([['2','7','X','A','A','A','A','A','A','A','A','A','A','A','A','9']].length
        = (1 : Int).toNat ∧
      [['2','7','X','A','A','A','A','A','A','A','A','A','A','A','A','9']].Nodup ∧
      ∀ x ∈ [['2','7','X','A','A','A','A','A','A','A','A','A','A','A','A','9']],
        (validate_eic_format x).is_valid = true) := by
  refine ⟨?_, ?_, ?_, ?_⟩
  · exact (bulk_generation_count_and_validity ['E'] ['2','7'] ['X'] (-1)
      (fun _ => []) 0 .ean8 []).1 (by decide)
  · exact (bulk_generation_count_and_validity ['E'] ['2','7'] ['X'] (-1)
      (fun _ => []) 0 .ean8 []).2.1 (by decide)
  · exact (bulk_generation_count_and_validity ['E'] ['2','7'] ['X'] 1
      (fun _ => ['1','2','3','4','5','6','7']) 1 .ean8
      [['1','2','3','4','5','6','7','0']]).2.2.1 (by decide)
      (fun i => ⟨by decide, by decide⟩) (by decide)
  · exact (bulk_generation_count_and_validity ['E'] ['2','7'] ['X'] 1
      (fun _ => List.replicate 12 'A') 1 .ean8
      [['2','7','X','A','A','A','A','A','A','A','A','A','A','A','A','9']]).2.2.2
      (by decide) (by decide) (by decide) (fun i => ⟨by decide, by decide⟩)
      (by decide)

end EICValidator
